import Mathlib

/-
Verification of the Subgraph Indexing Coordinator of graph-node
(src/core/src/subgraph/manager.rs) against its natural-language
specification.

The Rust code is shallowly embedded as pure Lean functions.  External
collaborators (the store and the Ethereum adapter) are modelled as an
environment of oracle functions; every observable effect of the walker
(store reads and writes, chain RPCs, event deliveries, error logging) is
recorded in an explicit trace of `Action` values, in the order the code
performs them.  Block numbers are modelled as `Int`: all numbers in play
are non-negative `u64` values and every subtraction in the source is
guarded by a comparison that rules out underflow, so `Int` arithmetic
agrees with the `u64` arithmetic on all reachable inputs; `Int` also
cleanly accommodates the spec's genesis-minus-one sentinel.
-/

namespace GraphNode

/-- REORG_THRESHOLD constant from manager.rs (line 17). -/
def REORG_THRESHOLD : Int := 300

/-- EthereumBlockPointer: a (number, hash) pair.  Hashes are modelled as
integers with decidable equality. -/
structure EthereumBlockPointer where
  number : Int
  hash : Int
deriving DecidableEq, Repr

/-- A fetched Ethereum block, as far as the coordinator inspects it:
its own number and hash and its parent hash. -/
structure EthBlock where
  number : Int
  hash : Int
  parentHash : Int
deriving DecidableEq, Repr

/-- EthereumBlockPointer::to_parent — the pointer to a fetched block's
parent: one number lower, at the parent hash. -/
def EthereumBlockPointer.to_parent (b : EthBlock) : EthereumBlockPointer :=
  { number := b.number - 1, hash := b.parentHash }

/-- The block pointer of a fetched block (From<Block> for EthereumBlockPointer). -/
def EthBlock.toPtr (b : EthBlock) : EthereumBlockPointer :=
  { number := b.number, hash := b.hash }

/-- Chain events are identified by an opaque label; the chain adapter
returns them per block already in chain order, which the walker preserves. -/
abbrev EthereumEvent := Nat

/-- EthereumEventFilter: a set of selectors, with empty() = [] and the
`+=` union modelled as concatenation. -/
abbrev EthereumEventFilter := List Nat

/-- Observable effects of the coordinator, in program order:
store reads, chain RPCs, store writes, event deliveries and error logs.
`deliverEvent e h ok` is one send of event `e` to the sink of host `h`
together with the awaited confirmation, `ok` recording whether the
send/confirm pair succeeded. -/
inductive Action where
  | readHead
  | readSubgraphPtr
  | rpcIsOnMainChain (p : EthereumBlockPointer)
  | rpcFindFirstBlocksWithEvents (lo hi : Int) (f : EthereumEventFilter)
  | rpcBlockByNumber (n : Int)
  | rpcBlockByHash (h : Int)
  | rpcGetEventsInBlock (b : EthBlock) (f : EthereumEventFilter)
  | storeBlockLookup (h : Int)
  | storeAncestorBlock (head : EthereumBlockPointer) (offset : Int)
  | setBlockPtrWithNoChanges (oldPtr newPtr : EthereumBlockPointer)
  | revertBlock (b : EthBlock)
  | entityWrite (blockHash : Int)
  | deliverEvent (e : EthereumEvent) (host : Nat) (ok : Bool)
  | logError
deriving DecidableEq, Repr

/-- The external collaborators (store and Ethereum adapter) as oracles.
The walker only observes their answers; any behaviour of the externals
is admitted. -/
structure Env where
  head_block_ptr : Option EthereumBlockPointer
  is_on_main_chain : EthereumBlockPointer → Bool
  find_first_blocks_with_events :
    Int → Int → EthereumEventFilter → List EthereumBlockPointer
  block_by_number : Int → EthBlock
  block_by_hash : Int → EthBlock
  store_block : Int → Option EthBlock
  ancestor_block : EthereumBlockPointer → Int → Option EthBlock
  get_events_in_block : EthBlock → EthereumEventFilter → List EthereumEvent
  send_ok : EthereumEvent → Nat → Bool

/-- Modelled from the spec: the store's block_ptr for a subgraph.  The
store implementation is not under src/; manager.rs only calls it.  The
spec says: "Read sub = store.block_pointer(id).  Absence is equivalent
to genesis-minus-one (implementation detail: use a genesis sentinel if
needed)."  `GENESIS_MINUS_ONE` is that sentinel, one below genesis. -/
def GENESIS_MINUS_ONE : EthereumBlockPointer := { number := -1, hash := 0 }

/-- Modelled from the spec: store.block_ptr(id) — returns the persisted
subgraph pointer, or the genesis-minus-one sentinel when the subgraph
was never indexed (the absence handling lives in the store
implementation, which is not under src/). -/
def block_ptr (stored : Option EthereumBlockPointer) : EthereumBlockPointer :=
  stored.getD GENESIS_MINUS_ONE

/-- Loading a block's full body: try the local block store first, fall
back to the block_by_hash RPC (manager.rs lines 479-491 and 569-581). -/
def load_block (env : Env) (h : Int) : EthBlock × List Action :=
  match env.store_block h with
  | some b => (b, [Action.storeBlockLookup h])
  | none => (env.block_by_hash h, [Action.storeBlockLookup h, Action.rpcBlockByHash h])

/-- The Step enum of handle_head_block_update (manager.rs lines 359-362):
move backwards one block, or forwards processing one or more blocks. -/
inductive Step where
  | toParent
  | toDescendants (blocks : List EthBlock)
deriving DecidableEq, Repr

/-- Result of the step-decision block: either a chosen Step, or a
`continue` of the outer loop issued from inside the decision (the
safe-mode fast-forward and the missing-ancestor restart both do this). -/
inductive DecideResult where
  | continueOuter
  | chosen (s : Step)
deriving DecidableEq, Repr

/-- The step-decision block of handle_head_block_update (manager.rs
lines 363-560).  Returns the decision, the store's subgraph pointer
after the block (the safe-mode fast-forward writes it), and the trace
of effects performed while deciding. -/
def decide_step (env : Env) (event_filter : EthereumEventFilter)
    (head_ptr subgraph_ptr : EthereumBlockPointer)
    (stored : Option EthereumBlockPointer) :
    DecideResult × Option EthereumBlockPointer × List Action :=
  if head_ptr.number - subgraph_ptr.number > REORG_THRESHOLD then
    -- Safe mode: beyond the reorg threshold, number-indexed RPCs are reliable.
    -- from := subgraph_ptr.number + 1, to := head_ptr.number - REORG_THRESHOLD.
    if env.is_on_main_chain subgraph_ptr then
      if (env.find_first_blocks_with_events (subgraph_ptr.number + 1)
            (head_ptr.number - REORG_THRESHOLD) event_filter).isEmpty then
        -- No matching events in range: move the pointer with no entity
        -- changes to the block at the to-number, and continue the outer loop.
        (DecideResult.continueOuter,
         some (env.block_by_number (head_ptr.number - REORG_THRESHOLD)).toPtr,
          [Action.rpcIsOnMainChain subgraph_ptr,
           Action.rpcFindFirstBlocksWithEvents (subgraph_ptr.number + 1)
             (head_ptr.number - REORG_THRESHOLD) event_filter,
           Action.rpcBlockByNumber (head_ptr.number - REORG_THRESHOLD),
           Action.setBlockPtrWithNoChanges subgraph_ptr
             (env.block_by_number (head_ptr.number - REORG_THRESHOLD)).toPtr])
      else
        -- Load each descendant block (local store first, RPC fallback).
        (DecideResult.chosen (Step.toDescendants
            (((env.find_first_blocks_with_events (subgraph_ptr.number + 1)
                (head_ptr.number - REORG_THRESHOLD) event_filter).map
              (fun p => load_block env p.hash)).map Prod.fst)), stored,
          [Action.rpcIsOnMainChain subgraph_ptr,
           Action.rpcFindFirstBlocksWithEvents (subgraph_ptr.number + 1)
             (head_ptr.number - REORG_THRESHOLD) event_filter]
            ++ ((((env.find_first_blocks_with_events (subgraph_ptr.number + 1)
                (head_ptr.number - REORG_THRESHOLD) event_filter).map
              (fun p => load_block env p.hash)).map Prod.snd).flatten))
    else
      (DecideResult.chosen Step.toParent, stored,
        [Action.rpcIsOnMainChain subgraph_ptr])
  else
    -- Near-head mode: work from the local block cache.
    -- offset := head_ptr.number - subgraph_ptr.number - 1.
    match env.ancestor_block head_ptr (head_ptr.number - subgraph_ptr.number - 1) with
    | none =>
      (DecideResult.continueOuter, stored,
        [Action.storeAncestorBlock head_ptr (head_ptr.number - subgraph_ptr.number - 1)])
    | some ancestor_blk =>
      if ancestor_blk.parentHash = subgraph_ptr.hash then
        (DecideResult.chosen (Step.toDescendants [ancestor_blk]), stored,
          [Action.storeAncestorBlock head_ptr (head_ptr.number - subgraph_ptr.number - 1)])
      else
        (DecideResult.chosen Step.toParent, stored,
          [Action.storeAncestorBlock head_ptr (head_ptr.number - subgraph_ptr.number - 1)])

/-- Event fan-out of a single block (manager.rs lines 641-659):
for each event, in chain order, and for each host sink, in order, send
the event and await its confirmation; the Result of the send/confirm
chain is discarded with .ok() so a failure only skips that pair. -/
def deliver_events (send_ok : EthereumEvent → Nat → Bool)
    (sinks : List Nat) (events : List EthereumEvent) : List Action :=
  events.foldl (fun acc event =>
    sinks.foldl (fun acc2 s => acc2 ++ [Action.deliverEvent event s (send_ok event s)]) acc) []

/-- Processing one descendant block (manager.rs lines 601-668): skip the
irrelevant gap with a pointer-only write if the block is not a direct
child, fetch the block's relevant events, fan them out to the host
sinks, and finally commit the pointer to the block itself. -/
def process_descendant (env : Env) (event_filter : EthereumEventFilter)
    (sinks : List Nat) (subgraph_ptr : EthereumBlockPointer) (b : EthBlock) :
    EthereumBlockPointer × List Action :=
  let descendant_parent_ptr := EthereumBlockPointer.to_parent b
  let gap :=
    if subgraph_ptr ≠ descendant_parent_ptr then
      [Action.setBlockPtrWithNoChanges subgraph_ptr descendant_parent_ptr]
    else []
  let events := env.get_events_in_block b event_filter
  (b.toPtr,
    gap ++ [Action.rpcGetEventsInBlock b event_filter]
        ++ deliver_events env.send_ok sinks events
        ++ [Action.setBlockPtrWithNoChanges descendant_parent_ptr b.toPtr])

/-- The for-loop over descendant blocks (manager.rs lines 600-668),
threading the advancing subgraph pointer. -/
def apply_descendants (env : Env) (event_filter : EthereumEventFilter)
    (sinks : List Nat) :
    EthereumBlockPointer → List EthBlock → EthereumBlockPointer × List Action
  | p, [] => (p, [])
  | p, b :: rest =>
    let step1 := process_descendant env event_filter sinks p b
    let step2 := apply_descendants env event_filter sinks step1.1 rest
    (step2.1, step1.2 ++ step2.2)

/-- Applying a chosen Step (manager.rs lines 563-675).  Returns the
store's subgraph pointer after the step and the trace of effects. -/
def apply_step (env : Env) (event_filter : EthereumEventFilter)
    (sinks : List Nat) (subgraph_ptr : EthereumBlockPointer) :
    Step → Option EthereumBlockPointer × List Action
  | Step.toParent =>
    -- Fetch the block at the subgraph pointer and revert it; revert_block
    -- atomically rolls back its entity writes and moves the pointer to
    -- the block's parent.
    let loaded := load_block env subgraph_ptr.hash
    (some (EthereumBlockPointer.to_parent loaded.1),
      loaded.2 ++ [Action.revertBlock loaded.1])
  | Step.toDescendants blocks =>
    let r := apply_descendants env event_filter sinks subgraph_ptr blocks
    (some r.1, r.2)

/-- Outcome of one iteration of the outer while loop. -/
inductive Outcome where
  | exited
  | continued
  | fatal
  | cancelledExit
deriving DecidableEq, Repr

/-- One iteration of the outer while loop of handle_head_block_update
(manager.rs lines 335-676): check the cancellation flag, read the head
and subgraph pointers, exit if caught up, otherwise decide and apply a
step.  `cancelled` is the value the flag reads as during this iteration.
Returns the outcome, the store's subgraph pointer afterwards, and the
trace of effects. -/
def handle_head_block_update_step (env : Env) (event_filter : EthereumEventFilter)
    (sinks : List Nat) (cancelled : Bool) (stored : Option EthereumBlockPointer) :
    Outcome × Option EthereumBlockPointer × List Action :=
  if cancelled then (Outcome.cancelledExit, stored, [])
  else
    match env.head_block_ptr with
    | none => (Outcome.fatal, stored, [Action.readHead])
    | some head_ptr =>
      let subgraph_ptr := block_ptr stored
      if subgraph_ptr.number ≥ head_ptr.number then
        (Outcome.exited, stored, [Action.readHead, Action.readSubgraphPtr])
      else
        let decided := decide_step env event_filter head_ptr subgraph_ptr stored
        match decided.1 with
        | DecideResult.continueOuter =>
          (Outcome.continued, decided.2.1,
            [Action.readHead, Action.readSubgraphPtr] ++ decided.2.2)
        | DecideResult.chosen s =>
          let applied := apply_step env event_filter sinks subgraph_ptr s
          (Outcome.continued, applied.1,
            [Action.readHead, Action.readSubgraphPtr] ++ decided.2.2 ++ applied.2)

/-- Result of running the walker loop to completion (with fuel, since
the loop's termination depends on the oracles). -/
inductive RunResult where
  | caughtUp
  | fatalErr
  | cancelledRun
  | outOfFuel
deriving DecidableEq, Repr

/-- The whole outer while loop of handle_head_block_update, iterated
with fuel. -/
def handle_head_block_update (env : Env) (event_filter : EthereumEventFilter)
    (sinks : List Nat) (cancelled : Bool) :
    Nat → Option EthereumBlockPointer →
    RunResult × Option EthereumBlockPointer × List Action
  | 0, stored => (RunResult.outOfFuel, stored, [])
  | fuel + 1, stored =>
    match handle_head_block_update_step env event_filter sinks cancelled stored with
    | (Outcome.exited, st, tr) => (RunResult.caughtUp, st, tr)
    | (Outcome.fatal, st, tr) => (RunResult.fatalErr, st, tr)
    | (Outcome.cancelledExit, st, tr) => (RunResult.cancelledRun, st, tr)
    | (Outcome.continued, st, tr) =>
      let rest := handle_head_block_update env event_filter sinks cancelled fuel st
      (rest.1, rest.2.1, tr ++ rest.2.2)

/-- A runtime host as the coordinator sees it: an identity (its position
comes from the data source it was built from) and its event filter,
`none` modelling an event_filter() error. -/
structure RuntimeHost where
  hid : Nat
  event_filter : Option EthereumEventFilter
deriving DecidableEq, Repr

/-- A subgraph manifest: id, location, and the ordered data sources.
Data sources are opaque labels; the host builder is a parameter. -/
structure SubgraphManifest where
  id : String
  location : String
  data_sources : List Nat
deriving DecidableEq, Repr

/-- The two registry maps of handle_subgraph_events: subgraph id to the
owned host list, and subgraph id to the head-block-update cancel handle
(modelled by the presence of the id in the second list). -/
structure ManagerState where
  runtime_hosts_by_subgraph : List (String × List RuntimeHost)
  head_block_update_cancelers : List String
deriving DecidableEq, Repr

/-- HashMap::insert semantics on the association list: a re-add replaces
any prior entry. -/
def upsert_hosts (m : List (String × List RuntimeHost)) (k : String)
    (v : List RuntimeHost) : List (String × List RuntimeHost) :=
  (k, v) :: m.filter (fun kv => kv.1 != k)

/-- The SubgraphAdded branch of handle_subgraph_events (manager.rs lines
81-124): build one host per data source in manifest order, insert the
host list and the cancel handle under the subgraph id. -/
def handle_subgraph_added (build : Nat → RuntimeHost) (st : ManagerState)
    (manifest : SubgraphManifest) : ManagerState :=
  { runtime_hosts_by_subgraph :=
      upsert_hosts st.runtime_hosts_by_subgraph manifest.id
        (manifest.data_sources.map build),
    head_block_update_cancelers :=
      manifest.id :: st.head_block_update_cancelers.filter (fun i => i != manifest.id) }

/-- The SubgraphRemoved branch of handle_subgraph_events (manager.rs
lines 125-144): remove the hosts, remove the cancel handle, and
`assert!(cancel.is_some())`.  `none` models the assertion panicking
(after the hosts were already removed). -/
def handle_subgraph_removed (st : ManagerState) (subgraph_id : String) :
    Option ManagerState :=
  let hosts2 := st.runtime_hosts_by_subgraph.filter (fun kv => kv.1 != subgraph_id)
  let cancel_found := st.head_block_update_cancelers.contains subgraph_id
  if cancel_found then
    some { runtime_hosts_by_subgraph := hosts2,
           head_block_update_cancelers :=
             st.head_block_update_cancelers.filter (fun i => i != subgraph_id) }
  else none

/-- handle_runtime_event (manager.rs lines 151-177): each EntitySet or
EntityRemoved from a host's event stream is committed in its own store
transaction scoped to the event's block, with no pointer update. -/
inductive RuntimeHostEvent where
  | entitySet (subgraph : String) (blockHash : Int)
  | entityRemoved (subgraph : String) (blockHash : Int)
deriving DecidableEq, Repr

/-- The store effect of handle_runtime_event: one entity-write commit
tagged with the event's block. -/
def handle_runtime_event : RuntimeHostEvent → List Action
  | RuntimeHostEvent.entitySet _ bh => [Action.entityWrite bh]
  | RuntimeHostEvent.entityRemoved _ bh => [Action.entityWrite bh]

/-- Building the combined event filter (manager.rs lines 250-262): fold
the hosts' filters with `+=`; a host whose event_filter() fails is
logged with error! and contributes nothing. -/
def union_filter (hosts : List RuntimeHost) : EthereumEventFilter × List Action :=
  hosts.foldl (fun acc h =>
    match h.event_filter with
    | some f => (acc.1 ++ f, acc.2)
    | none => (acc.1, acc.2 ++ [Action.logError])) ([], [])

/-- Result of one head-block-update token: Ok(()) keeps the stream
alive, Err(()) (returned when the cancel flag is set) terminates it. -/
inductive TokenResult where
  | ok
  | streamErr
deriving DecidableEq, Repr

/-- The per-token closure of spawn_head_block_update_task (manager.rs
lines 229-293): check the cancel flag, look up the subgraph's hosts
(missing entry treated as the empty list), return immediately if there
are none, otherwise build the union filter, collect the sinks in host
order and run the walker; walker errors are logged, the token handler
itself returns Ok. -/
def head_block_update_on_token (fuel : Nat) (cancelled : Bool) (env : Env)
    (runtime_hosts_by_subgraph : List (String × List RuntimeHost))
    (subgraph_id : String) (stored : Option EthereumBlockPointer) :
    TokenResult × Option EthereumBlockPointer × List Action :=
  if cancelled then (TokenResult.streamErr, stored, [])
  else
    let runtime_hosts := (runtime_hosts_by_subgraph.lookup subgraph_id).getD []
    if runtime_hosts.isEmpty then (TokenResult.ok, stored, [])
    else
      let filtered := union_filter runtime_hosts
      let sinks := runtime_hosts.map RuntimeHost.hid
      let walked := handle_head_block_update env filtered.1 sinks cancelled fuel stored
      (TokenResult.ok, walked.2.1, filtered.2 ++ walked.2.2)

/-
Cross-task commit ordering (for the ordering between the walker's
pointer advance and the entity commits performed by the runtime-event
stream handler tasks).  manager.rs establishes these happens-before
edges for a single event of a single block:
  - the walker sends the event before it awaits the confirmation
    (lines 645-657), and awaits the confirmation before it calls
    set_block_ptr_with_no_changes for the block (lines 641-665);
  - the entity commit (handle_runtime_event, spawned as an independent
    task in spawn_runtime_event_stream_handler_tasks, lines 179-191)
    is caused by the event, hence happens after the send.
No edge in manager.rs orders the entity commit before the confirmation
or before the pointer advance.  A schedule is consistent with the code
iff it is an interleaving of the four actions respecting exactly those
edges.
-/
inductive TaskEvt where
  | sendEvent
  | confirmEvent
  | commitEntity
  | commitPtr
deriving DecidableEq, BEq, Repr

/-- A schedule of the four per-event actions is consistent with the
synchronization present in manager.rs iff each action occurs exactly
once and the happens-before edges send→confirm, confirm→commitPtr and
send→commitEntity are respected. -/
def schedule_consistent (tr : List TaskEvt) : Bool :=
  (tr.count TaskEvt.sendEvent == 1) &&
  (tr.count TaskEvt.confirmEvent == 1) &&
  (tr.count TaskEvt.commitEntity == 1) &&
  (tr.count TaskEvt.commitPtr == 1) &&
  Nat.blt (tr.indexOf TaskEvt.sendEvent) (tr.indexOf TaskEvt.confirmEvent) &&
  Nat.blt (tr.indexOf TaskEvt.confirmEvent) (tr.indexOf TaskEvt.commitPtr) &&
  Nat.blt (tr.indexOf TaskEvt.sendEvent) (tr.indexOf TaskEvt.commitEntity)

/-- Classifier: the chain RPCs that index by block number
(is_on_main_chain relies on the number-to-block assignment being
stable, find_first_blocks_with_events and block_by_number take raw
numbers). -/
def is_number_indexed : Action → Bool
  | Action.rpcIsOnMainChain _ => true
  | Action.rpcFindFirstBlocksWithEvents _ _ _ => true
  | Action.rpcBlockByNumber _ => true
  | _ => false

/-- Classifier: event-delivery actions. -/
def is_delivery : Action → Bool
  | Action.deliverEvent _ _ _ => true
  | _ => false

/-- Classifier: entity-write commits. -/
def is_entity_write : Action → Bool
  | Action.entityWrite _ => true
  | _ => false

/-- Classifier: store writes (pointer moves and block reverts). -/
def is_store_write : Action → Bool
  | Action.setBlockPtrWithNoChanges _ _ => true
  | Action.revertBlock _ => true
  | Action.entityWrite _ => true
  | _ => false

/-- Classifier: error-log emissions. -/
def is_log : Action → Bool
  | Action.logError => true
  | _ => false

/-! Helper lemmas shared by the claim theorems. -/

theorem foldl_push_eq_map (g : Nat → Action) :
    ∀ (sinks : List Nat) (acc : List Action),
      sinks.foldl (fun a2 s => a2 ++ [g s]) acc = acc ++ sinks.map g := by
  intro sinks
  induction sinks with
  | nil => intro acc; simp
  | cons s rest ih => intro acc; simp [List.foldl_cons, ih]

theorem deliver_events_foldl (send_ok : EthereumEvent → Nat → Bool) (sinks : List Nat) :
    ∀ (events : List EthereumEvent) (acc : List Action),
      events.foldl (fun acc2 event =>
          sinks.foldl (fun a2 s => a2 ++ [Action.deliverEvent event s (send_ok event s)]) acc2)
        acc
      = acc ++ events.flatMap (fun e =>
          sinks.map (fun s => Action.deliverEvent e s (send_ok e s))) := by
  intro events
  induction events with
  | nil => intro acc; simp
  | cons e rest ih =>
    intro acc
    rw [List.foldl_cons, List.flatMap_cons, ih, foldl_push_eq_map, List.append_assoc]

/-- The event fan-out over a block is the chain-ordered event list,
each event mapped over the sinks in order. -/
theorem deliver_events_eq (send_ok : EthereumEvent → Nat → Bool)
    (sinks : List Nat) (events : List EthereumEvent) :
    deliver_events send_ok sinks events
      = events.flatMap (fun e =>
          sinks.map (fun s => Action.deliverEvent e s (send_ok e s))) := by
  simpa using deliver_events_foldl send_ok sinks events []

theorem is_number_indexed_deliver_events (send_ok : EthereumEvent → Nat → Bool)
    (sinks : List Nat) (events : List EthereumEvent) (a : Action)
    (ha : a ∈ deliver_events send_ok sinks events) : is_number_indexed a = false := by
  rw [deliver_events_eq] at ha
  rcases List.mem_flatMap.mp ha with ⟨e, _, hm⟩
  rcases List.mem_map.mp hm with ⟨s, _, rfl⟩
  rfl

theorem is_number_indexed_load_block (env : Env) (h : Int) (a : Action)
    (ha : a ∈ (load_block env h).2) : is_number_indexed a = false := by
  unfold load_block at ha
  rcases hsb : env.store_block h with _ | b <;> rw [hsb] at ha <;>
    simp only [List.mem_cons, List.mem_singleton, List.not_mem_nil] at ha <;>
    rcases ha with rfl | ha <;> first | rfl | (rcases ha with rfl | ha) <;>
      first | rfl | exact absurd ha (by simp)

theorem is_number_indexed_process_descendant (env : Env)
    (event_filter : EthereumEventFilter) (sinks : List Nat)
    (p : EthereumBlockPointer) (b : EthBlock) (a : Action)
    (ha : a ∈ (process_descendant env event_filter sinks p b).2) :
    is_number_indexed a = false := by
  unfold process_descendant at ha
  simp only [List.mem_append] at ha
  rcases ha with ((hg | hr) | hd) | hs
  · split at hg <;> simp only [List.mem_singleton, List.not_mem_nil] at hg
    subst hg; rfl
  · simp only [List.mem_singleton] at hr; subst hr; rfl
  · exact is_number_indexed_deliver_events _ _ _ _ hd
  · simp only [List.mem_singleton] at hs; subst hs; rfl

theorem is_number_indexed_apply_descendants (env : Env)
    (event_filter : EthereumEventFilter) (sinks : List Nat) :
    ∀ (blocks : List EthBlock) (p : EthereumBlockPointer) (a : Action),
      a ∈ (apply_descendants env event_filter sinks p blocks).2 →
      is_number_indexed a = false := by
  intro blocks
  induction blocks with
  | nil => intro p a ha; simp [apply_descendants] at ha
  | cons b rest ih =>
    intro p a ha
    simp only [apply_descendants, List.mem_append] at ha
    rcases ha with h1 | h2
    · exact is_number_indexed_process_descendant _ _ _ _ _ _ h1
    · exact ih _ _ h2

theorem is_number_indexed_apply_step (env : Env)
    (event_filter : EthereumEventFilter) (sinks : List Nat)
    (p : EthereumBlockPointer) (s : Step) (a : Action)
    (ha : a ∈ (apply_step env event_filter sinks p s).2) :
    is_number_indexed a = false := by
  cases s with
  | toParent =>
    simp only [apply_step, List.mem_append] at ha
    rcases ha with h1 | h2
    · exact is_number_indexed_load_block _ _ _ h1
    · simp only [List.mem_singleton] at h2; subst h2; rfl
  | toDescendants blocks =>
    exact is_number_indexed_apply_descendants env event_filter sinks blocks p a ha

theorem is_number_indexed_decide_step_near (env : Env)
    (event_filter : EthereumEventFilter)
    (head_ptr subgraph_ptr : EthereumBlockPointer)
    (stored : Option EthereumBlockPointer)
    (hnear : ¬ head_ptr.number - subgraph_ptr.number > REORG_THRESHOLD)
    (a : Action)
    (ha : a ∈ (decide_step env event_filter head_ptr subgraph_ptr stored).2.2) :
    is_number_indexed a = false := by
  unfold decide_step at ha
  rw [if_neg hnear] at ha
  rcases hanc : env.ancestor_block head_ptr (head_ptr.number - subgraph_ptr.number - 1) with
    _ | blk <;> simp only [hanc] at ha
  · simp only [List.mem_singleton] at ha; subst ha; rfl
  · split at ha <;> simp only [List.mem_singleton] at ha <;> subst ha <;> rfl

/-! Claim theorems. -/

/-- C1: In safe mode (head.number - sub.number > D, sub on the main
chain), if find_first_blocks_with_events(sub.number+1, head.number-D,
unionFilter) returns the empty list, the walker performs exactly one
set_block_ptr_with_no_changes moving the subgraph pointer from sub to
the block whose number is head.number-D (looked up by block_by_number),
makes no entity writes and delivers no events for that range, and then
continues the outer loop.  The iteration's full effect trace is the two
pointer reads, the two safe-mode RPCs, the block_by_number lookup and
the single pointer move; it contains no delivery and no entity write,
and exactly one store write. -/
theorem safe_mode_fast_forward (env : Env) (event_filter : EthereumEventFilter)
    (sinks : List Nat) (stored : Option EthereumBlockPointer)
    (h : EthereumBlockPointer)
    (hhead : env.head_block_ptr = some h)
    (hdepth : h.number - (block_ptr stored).number > REORG_THRESHOLD)
    (hmain : env.is_on_main_chain (block_ptr stored) = true)
    (hempty : env.find_first_blocks_with_events ((block_ptr stored).number + 1)
        (h.number - REORG_THRESHOLD) event_filter = [])
    (hwf : (env.block_by_number (h.number - REORG_THRESHOLD)).number
        = h.number - REORG_THRESHOLD) :
    handle_head_block_update_step env event_filter sinks false stored =
      (Outcome.continued,
       some (env.block_by_number (h.number - REORG_THRESHOLD)).toPtr,
       [Action.readHead, Action.readSubgraphPtr,
        Action.rpcIsOnMainChain (block_ptr stored),
        Action.rpcFindFirstBlocksWithEvents ((block_ptr stored).number + 1)
          (h.number - REORG_THRESHOLD) event_filter,
        Action.rpcBlockByNumber (h.number - REORG_THRESHOLD),
        Action.setBlockPtrWithNoChanges (block_ptr stored)
          (env.block_by_number (h.number - REORG_THRESHOLD)).toPtr])
    ∧ (env.block_by_number (h.number - REORG_THRESHOLD)).toPtr.number
        = h.number - REORG_THRESHOLD
    ∧ (handle_head_block_update_step env event_filter sinks false stored).2.2.countP
        is_delivery = 0
    ∧ (handle_head_block_update_step env event_filter sinks false stored).2.2.countP
        is_entity_write = 0
    ∧ (handle_head_block_update_step env event_filter sinks false stored).2.2.countP
        is_store_write = 1 := by
  have hlt : ¬ ((block_ptr stored).number ≥ h.number) := by
    have hRT : REORG_THRESHOLD = 300 := rfl
    omega
  have heq : handle_head_block_update_step env event_filter sinks false stored =
      (Outcome.continued,
       some (env.block_by_number (h.number - REORG_THRESHOLD)).toPtr,
       [Action.readHead, Action.readSubgraphPtr,
        Action.rpcIsOnMainChain (block_ptr stored),
        Action.rpcFindFirstBlocksWithEvents ((block_ptr stored).number + 1)
          (h.number - REORG_THRESHOLD) event_filter,
        Action.rpcBlockByNumber (h.number - REORG_THRESHOLD),
        Action.setBlockPtrWithNoChanges (block_ptr stored)
          (env.block_by_number (h.number - REORG_THRESHOLD)).toPtr]) := by
    unfold handle_head_block_update_step decide_step
    simp only [hhead, if_neg hlt, if_pos hdepth, hmain, hempty, List.isEmpty_nil,
      if_true, Bool.false_eq_true, if_false]
    rfl
  refine ⟨heq, by simpa [EthBlock.toPtr] using hwf, ?_, ?_, ?_⟩ <;> rw [heq] <;>
    simp [List.countP_cons, is_delivery, is_entity_write, is_store_write]

/-- Concrete environment realizing spec scenario S1 shifted past the
source's D = 300: head number 320, subgraph pointer at number 5, no
matching events anywhere, every pointer on the main chain. -/
def envS1 : Env :=
  { head_block_ptr := some { number := 320, hash := 20 },
    is_on_main_chain := fun _ => true,
    find_first_blocks_with_events := fun _ _ _ => [],
    block_by_number := fun n => { number := n, hash := n + 1000, parentHash := n + 999 },
    block_by_hash := fun hs => { number := 0, hash := hs, parentHash := 0 },
    store_block := fun _ => none,
    ancestor_block := fun _ _ => none,
    get_events_in_block := fun _ _ => [],
    send_ok := fun _ _ => true }

/-- Witness for C1 at the concrete environment envS1: head #320, sub #5. -/
theorem safe_mode_fast_forward_witness :
    handle_head_block_update_step envS1 [] [] false (some { number := 5, hash := 5 }) =
      (Outcome.continued,
       some (envS1.block_by_number ((320 : Int) - REORG_THRESHOLD)).toPtr,
       [Action.readHead, Action.readSubgraphPtr,
        Action.rpcIsOnMainChain (block_ptr (some { number := 5, hash := 5 })),
        Action.rpcFindFirstBlocksWithEvents ((block_ptr (some { number := 5, hash := 5 })).number + 1)
          ((320 : Int) - REORG_THRESHOLD) [],
        Action.rpcBlockByNumber ((320 : Int) - REORG_THRESHOLD),
        Action.setBlockPtrWithNoChanges (block_ptr (some { number := 5, hash := 5 }))
          (envS1.block_by_number ((320 : Int) - REORG_THRESHOLD)).toPtr])
    ∧ (envS1.block_by_number ((320 : Int) - REORG_THRESHOLD)).toPtr.number
        = (320 : Int) - REORG_THRESHOLD
    ∧ (handle_head_block_update_step envS1 [] [] false (some { number := 5, hash := 5 })).2.2.countP
        is_delivery = 0
    ∧ (handle_head_block_update_step envS1 [] [] false (some { number := 5, hash := 5 })).2.2.countP
        is_entity_write = 0
    ∧ (handle_head_block_update_step envS1 [] [] false (some { number := 5, hash := 5 })).2.2.countP
        is_store_write = 1 :=
  safe_mode_fast_forward envS1 [] [] (some { number := 5, hash := 5 })
    { number := 320, hash := 20 } rfl (by decide) rfl rfl rfl

/-- C2: In near-head mode (0 < head.number - sub.number <= D), the
walker computes offset = head.number - sub.number - 1 and calls
ancestor_block(head, offset); if the result is absent it restarts the
outer loop; if the returned candidate's parent_hash equals sub.hash the
step is ToDescendants([candidate]) advancing exactly one block (the
applied step leaves the pointer at the candidate); otherwise the step
is ToParent. -/
theorem near_head_step (env : Env) (event_filter : EthereumEventFilter)
    (sinks : List Nat) (stored : Option EthereumBlockPointer)
    (h : EthereumBlockPointer)
    (hhead : env.head_block_ptr = some h)
    (hlt : (block_ptr stored).number < h.number)
    (hle : h.number - (block_ptr stored).number ≤ REORG_THRESHOLD) :
    (Action.storeAncestorBlock h (h.number - (block_ptr stored).number - 1)
       ∈ (handle_head_block_update_step env event_filter sinks false stored).2.2)
    ∧ (env.ancestor_block h (h.number - (block_ptr stored).number - 1) = none →
        (handle_head_block_update_step env event_filter sinks false stored).1
          = Outcome.continued ∧
        (decide_step env event_filter h (block_ptr stored) stored).1
          = DecideResult.continueOuter)
    ∧ (∀ c, env.ancestor_block h (h.number - (block_ptr stored).number - 1) = some c →
        c.parentHash = (block_ptr stored).hash →
        (decide_step env event_filter h (block_ptr stored) stored).1
          = DecideResult.chosen (Step.toDescendants [c]) ∧
        (apply_step env event_filter sinks (block_ptr stored) (Step.toDescendants [c])).1
          = some c.toPtr)
    ∧ (∀ c, env.ancestor_block h (h.number - (block_ptr stored).number - 1) = some c →
        c.parentHash ≠ (block_ptr stored).hash →
        (decide_step env event_filter h (block_ptr stored) stored).1
          = DecideResult.chosen Step.toParent) := by
  have hnge : ¬ ((block_ptr stored).number ≥ h.number) := by omega
  have hngt : ¬ (h.number - (block_ptr stored).number > REORG_THRESHOLD) := by omega
  refine ⟨?_, ?_, ?_, ?_⟩
  · unfold handle_head_block_update_step decide_step
    simp only [hhead, if_neg hnge, if_neg hngt, Bool.false_eq_true, if_false]
    rcases hanc : env.ancestor_block h (h.number - (block_ptr stored).number - 1) with _ | c
    · simp
    · by_cases hp : c.parentHash = (block_ptr stored).hash <;> simp [hp]
  · intro hanc
    unfold handle_head_block_update_step decide_step
    simp only [hhead, if_neg hnge, if_neg hngt, hanc, Bool.false_eq_true, if_false]
    constructor <;> first | rfl | trivial
  · intro c hanc hpar
    constructor
    · unfold decide_step
      simp only [if_neg hngt, hanc, if_pos hpar]
    · simp [apply_step, apply_descendants, process_descendant]
  · intro c hanc hpar
    unfold decide_step
    simp only [if_neg hngt, hanc, if_neg hpar]

/-- Concrete near-head environment: head #20, local cache holds the
head's ancestor at offset 1, namely block #19 whose parent hash is 118. -/
def envC2 : Env :=
  { head_block_ptr := some { number := 20, hash := 120 },
    is_on_main_chain := fun _ => true,
    find_first_blocks_with_events := fun _ _ _ => [],
    block_by_number := fun n => { number := n, hash := n + 100, parentHash := n + 99 },
    block_by_hash := fun hs => { number := 0, hash := hs, parentHash := 0 },
    store_block := fun _ => none,
    ancestor_block := fun _ off =>
      if off = 1 then some { number := 19, hash := 119, parentHash := 118 } else none,
    get_events_in_block := fun _ _ => [],
    send_ok := fun _ _ => true }

/-- Witness for C2 at envC2: head #20, sub #18 (depth 2 ≤ D), offset 1;
the cached candidate #19 has parent hash 118 = sub.hash, so the step is
ToDescendants([candidate]) and applying it leaves the pointer at #19. -/
theorem near_head_step_witness :
    (decide_step envC2 [] { number := 20, hash := 120 }
        (block_ptr (some { number := 18, hash := 118 }))
        (some { number := 18, hash := 118 })).1
      = DecideResult.chosen
          (Step.toDescendants [{ number := 19, hash := 119, parentHash := 118 }])
    ∧ (apply_step envC2 [] [] (block_ptr (some { number := 18, hash := 118 }))
        (Step.toDescendants [{ number := 19, hash := 119, parentHash := 118 }])).1
      = some (EthBlock.toPtr { number := 19, hash := 119, parentHash := 118 }) :=
  (near_head_step envC2 [] [] (some { number := 18, hash := 118 })
      { number := 20, hash := 120 } rfl (by decide) (by decide)).2.2.1
    { number := 19, hash := 119, parentHash := 118 } rfl rfl

/-- C3: The number-indexed chain RPCs (is_on_main_chain,
find_first_blocks_with_events, block_by_number) are invoked only under
the precondition head.number - sub.number > D; at depth exactly D the
walker takes the near-head (local-cache) path — it consults the local
ancestor_block cache with offset D - 1 and its trace contains no
number-indexed RPC (the second fact follows from the first; the
ancestor lookup is asserted explicitly). -/
theorem number_indexed_rpc_only_safe_mode (env : Env)
    (event_filter : EthereumEventFilter) (sinks : List Nat)
    (stored : Option EthereumBlockPointer) :
    (∀ a ∈ (handle_head_block_update_step env event_filter sinks false stored).2.2,
       is_number_indexed a = true →
       ∃ h, env.head_block_ptr = some h ∧
         h.number - (block_ptr stored).number > REORG_THRESHOLD)
    ∧ (∀ h, env.head_block_ptr = some h →
        h.number - (block_ptr stored).number = REORG_THRESHOLD →
        Action.storeAncestorBlock h (REORG_THRESHOLD - 1)
          ∈ (handle_head_block_update_step env event_filter sinks false stored).2.2) := by
  constructor
  · intro a ha htrue
    unfold handle_head_block_update_step at ha
    rcases hh : env.head_block_ptr with _ | h
    · simp only [hh, Bool.false_eq_true, if_false, List.mem_singleton] at ha
      subst ha; exact absurd htrue (by simp [is_number_indexed])
    · simp only [hh, Bool.false_eq_true, if_false] at ha
      by_cases hge : (block_ptr stored).number ≥ h.number
      · rw [if_pos hge] at ha
        simp only [List.mem_cons, List.mem_singleton, List.not_mem_nil, or_false] at ha
        rcases ha with rfl | rfl <;> exact absurd htrue (by simp [is_number_indexed])
      · rw [if_neg hge] at ha
        by_cases hgt : h.number - (block_ptr stored).number > REORG_THRESHOLD
        · exact ⟨h, rfl, hgt⟩
        · exfalso
          split at ha <;>
            simp only [List.mem_cons, List.mem_append, List.mem_singleton,
              List.not_mem_nil, or_false] at ha
          · rcases ha with (rfl | rfl) | hd
            · exact absurd htrue (by simp [is_number_indexed])
            · exact absurd htrue (by simp [is_number_indexed])
            · rw [is_number_indexed_decide_step_near env event_filter h
                (block_ptr stored) stored hgt a hd] at htrue
              exact absurd htrue (by simp)
          · rcases ha with ((rfl | rfl) | hd) | hap
            · exact absurd htrue (by simp [is_number_indexed])
            · exact absurd htrue (by simp [is_number_indexed])
            · rw [is_number_indexed_decide_step_near env event_filter h
                (block_ptr stored) stored hgt a hd] at htrue
              exact absurd htrue (by simp)
            · rw [is_number_indexed_apply_step env event_filter sinks
                (block_ptr stored) _ a hap] at htrue
              exact absurd htrue (by simp)
  · intro h hh hdep
    have hRT : REORG_THRESHOLD = 300 := rfl
    have hnge : ¬ ((block_ptr stored).number ≥ h.number) := by omega
    have hngt : ¬ (h.number - (block_ptr stored).number > REORG_THRESHOLD) := by omega
    have hoff : h.number - (block_ptr stored).number - 1 = REORG_THRESHOLD - 1 := by omega
    unfold handle_head_block_update_step decide_step
    simp only [hh, if_neg hnge, if_neg hngt, Bool.false_eq_true, if_false, hoff]
    rcases hanc : env.ancestor_block h (REORG_THRESHOLD - 1) with _ | c
    · simp
    · by_cases hp : c.parentHash = (block_ptr stored).hash <;> simp [hp]

/-- Concrete environment with the subgraph exactly D = 300 blocks below
the head: head #305, sub #5. -/
def envC3 : Env :=
  { head_block_ptr := some { number := 305, hash := 17 },
    is_on_main_chain := fun _ => true,
    find_first_blocks_with_events := fun _ _ _ => [],
    block_by_number := fun n => { number := n, hash := n + 1000, parentHash := n + 999 },
    block_by_hash := fun hs => { number := 0, hash := hs, parentHash := 0 },
    store_block := fun _ => none,
    ancestor_block := fun _ _ => none,
    get_events_in_block := fun _ _ => [],
    send_ok := fun _ _ => true }

/-- Witness for C3: at depth exactly D (head #305, sub #5) the walker
consults the local ancestor cache at offset D - 1 = 299. -/
theorem number_indexed_rpc_only_safe_mode_witness :
    Action.storeAncestorBlock { number := 305, hash := 17 } (REORG_THRESHOLD - 1)
      ∈ (handle_head_block_update_step envC3 [] [] false
           (some { number := 5, hash := 5 })).2.2 :=
  (number_indexed_rpc_only_safe_mode envC3 [] [] (some { number := 5, hash := 5 })).2
    { number := 305, hash := 17 } rfl (by decide)

/-- C4: For every pair of pointers read at the top of an outer-loop
iteration, the walker exits the loop (normal termination) if and only
if sub.number >= head.number; in particular when sub.number >
head.number it exits with a trace containing only the two pointer
reads — no store write, no event delivery, no chain RPC. -/
theorem walker_exit_iff_caught_up (env : Env) (event_filter : EthereumEventFilter)
    (sinks : List Nat) (stored : Option EthereumBlockPointer)
    (h : EthereumBlockPointer)
    (hhead : env.head_block_ptr = some h) :
    ((handle_head_block_update_step env event_filter sinks false stored).1
        = Outcome.exited
      ↔ (block_ptr stored).number ≥ h.number)
    ∧ ((block_ptr stored).number > h.number →
        handle_head_block_update_step env event_filter sinks false stored
          = (Outcome.exited, stored, [Action.readHead, Action.readSubgraphPtr])) := by
  have hcont : ∀ _hne : ¬ ((block_ptr stored).number ≥ h.number),
      (handle_head_block_update_step env event_filter sinks false stored).1
        = Outcome.continued := by
    intro hne
    unfold handle_head_block_update_step
    simp only [hhead, if_neg hne, Bool.false_eq_true, if_false]
    split <;> rfl
  constructor
  · constructor
    · intro hex
      by_contra hne
      rw [hcont hne] at hex
      exact absurd hex (by simp)
    · intro hge
      unfold handle_head_block_update_step
      simp only [hhead, if_pos hge, Bool.false_eq_true, if_false]
  · intro hgt
    have hge : (block_ptr stored).number ≥ h.number := le_of_lt hgt
    unfold handle_head_block_update_step
    simp only [hhead, if_pos hge, Bool.false_eq_true, if_false]

/-- Witness for C4 at envC3 with the subgraph pointer one past the
head: the iteration exits with only the two pointer reads. -/
theorem walker_exit_iff_caught_up_witness :
    ((handle_head_block_update_step envC3 [] [] false
        (some { number := 306, hash := 9 })).1 = Outcome.exited
      ↔ (block_ptr (some { number := 306, hash := 9 })).number ≥ (305 : Int))
    ∧ ((block_ptr (some { number := 306, hash := 9 })).number > (305 : Int) →
        handle_head_block_update_step envC3 [] [] false (some { number := 306, hash := 9 })
          = (Outcome.exited, some { number := 306, hash := 9 },
             [Action.readHead, Action.readSubgraphPtr])) :=
  walker_exit_iff_caught_up envC3 [] [] (some { number := 306, hash := 9 })
    { number := 305, hash := 17 } rfl

/-- C5: When store.block_pointer(id) returns no pointer for the
subgraph (subgraph never indexed), the walker treats the absent pointer
as genesis-minus-one (a sentinel one below genesis) and proceeds to
reconcile from there rather than failing: with the head pointer
present, an iteration started from an absent pointer never takes the
fatal outcome.  (The absence handling is modelled from the spec, see
`block_ptr`: the store implementation is not under src/.) -/
theorem absent_pointer_is_genesis_sentinel (env : Env)
    (event_filter : EthereumEventFilter) (sinks : List Nat)
    (h : EthereumBlockPointer)
    (hhead : env.head_block_ptr = some h) :
    block_ptr none = GENESIS_MINUS_ONE
    ∧ (handle_head_block_update_step env event_filter sinks false none).1
        ≠ Outcome.fatal := by
  refine ⟨rfl, ?_⟩
  unfold handle_head_block_update_step
  simp only [hhead, Bool.false_eq_true, if_false]
  by_cases hge : (block_ptr none).number ≥ h.number
  · rw [if_pos hge]; simp
  · rw [if_neg hge]; split <;> simp

/-- Witness for C5 at envS1: never-indexed subgraph, head #320. -/
theorem absent_pointer_is_genesis_sentinel_witness :
    block_ptr none = GENESIS_MINUS_ONE
    ∧ (handle_head_block_update_step envS1 [] [] false none).1 ≠ Outcome.fatal :=
  absent_pointer_is_genesis_sentinel envS1 [] [] { number := 320, hash := 20 } rfl

/-- C6: While processing a block in ToDescendants, events are delivered
in chain order, and each event is delivered to every host in manifest
order (the order hosts were built from data_sources, which is also the
order the registry stores them under the subgraph id), with the
confirmation awaited after each send before the next send (each
deliverEvent action is one send plus its awaited confirmation, and the
trace is their exact sequential order); the pointer commit to the block
happens only once, after all its events have been processed — it is
the single trailing action of the block's trace. -/
theorem block_events_chain_order_manifest_fanout (env : Env)
    (event_filter : EthereumEventFilter) (build : Nat → RuntimeHost)
    (manifest : SubgraphManifest) (st : ManagerState)
    (p : EthereumBlockPointer) (b : EthBlock) :
    ((handle_subgraph_added build st manifest).runtime_hosts_by_subgraph.lookup manifest.id
       = some (manifest.data_sources.map build))
    ∧ process_descendant env event_filter
        ((manifest.data_sources.map build).map RuntimeHost.hid) p b
      = (b.toPtr,
         (if p ≠ EthereumBlockPointer.to_parent b then
            [Action.setBlockPtrWithNoChanges p (EthereumBlockPointer.to_parent b)]
          else [])
         ++ [Action.rpcGetEventsInBlock b event_filter]
         ++ (env.get_events_in_block b event_filter).flatMap (fun e =>
              ((manifest.data_sources.map build).map RuntimeHost.hid).map (fun hid =>
                Action.deliverEvent e hid (env.send_ok e hid)))
         ++ [Action.setBlockPtrWithNoChanges (EthereumBlockPointer.to_parent b) b.toPtr]) := by
  constructor
  · simp [handle_subgraph_added, upsert_hosts, List.lookup]
  · simp only [process_descendant]
    rw [deliver_events_eq]

/-- C7 (amended): a failed event_sink.send or confirmation is silently
discarded — the Result is dropped with .ok() and nothing is logged —
only that event/host pair is skipped, the walker still attempts every
remaining host/event pair, and it still commits the block's pointer;
the failure never surfaces in the iteration's outcome.  Every
(event, host) pair appears in the block's trace as an attempted
delivery regardless of the success flag, the last action of the block
is the pointer commit, and the trace contains no log emission. -/
theorem send_failure_skipped_silently (env : Env)
    (event_filter : EthereumEventFilter) (sinks : List Nat)
    (p : EthereumBlockPointer) (b : EthBlock) (e : EthereumEvent) (hostId : Nat)
    (he : e ∈ env.get_events_in_block b event_filter)
    (hs : hostId ∈ sinks) :
    Action.deliverEvent e hostId (env.send_ok e hostId)
      ∈ (process_descendant env event_filter sinks p b).2
    ∧ (process_descendant env event_filter sinks p b).2.getLast?
        = some (Action.setBlockPtrWithNoChanges (EthereumBlockPointer.to_parent b) b.toPtr)
    ∧ (process_descendant env event_filter sinks p b).2.countP is_log = 0 := by
  have htr : (process_descendant env event_filter sinks p b).2
      = ((if p ≠ EthereumBlockPointer.to_parent b then
            [Action.setBlockPtrWithNoChanges p (EthereumBlockPointer.to_parent b)]
          else [])
         ++ [Action.rpcGetEventsInBlock b event_filter]
         ++ deliver_events env.send_ok sinks (env.get_events_in_block b event_filter))
        ++ [Action.setBlockPtrWithNoChanges (EthereumBlockPointer.to_parent b) b.toPtr] := by
    unfold process_descendant
    simp [List.append_assoc]
  refine ⟨?_, ?_, ?_⟩
  · rw [htr]
    refine List.mem_append.mpr (Or.inl (List.mem_append.mpr (Or.inr ?_)))
    rw [deliver_events_eq]
    exact List.mem_flatMap.mpr ⟨e, he, List.mem_map.mpr ⟨hostId, hs, rfl⟩⟩
  · rw [htr]
    exact List.getLast?_concat _
  · rw [htr]
    simp only [List.countP_append]
    have h1 : List.countP is_log
        (if p ≠ EthereumBlockPointer.to_parent b then
          [Action.setBlockPtrWithNoChanges p (EthereumBlockPointer.to_parent b)]
        else []) = 0 := by
      split <;> simp [List.countP_cons, is_log]
    have h2 : List.countP is_log
        (deliver_events env.send_ok sinks (env.get_events_in_block b event_filter)) = 0 := by
      refine List.countP_eq_zero.mpr ?_
      intro a ha
      rw [deliver_events_eq] at ha
      rcases List.mem_flatMap.mp ha with ⟨ev, _, hm⟩
      rcases List.mem_map.mp hm with ⟨s, _, rfl⟩
      simp [is_log]
    simp [h1, h2, List.countP_cons, is_log]

/-- Environment whose single relevant event always fails to send. -/
def envFail : Env :=
  { head_block_ptr := some { number := 20, hash := 120 },
    is_on_main_chain := fun _ => true,
    find_first_blocks_with_events := fun _ _ _ => [],
    block_by_number := fun n => { number := n, hash := n + 100, parentHash := n + 99 },
    block_by_hash := fun hs => { number := 0, hash := hs, parentHash := 0 },
    store_block := fun _ => none,
    ancestor_block := fun _ _ => none,
    get_events_in_block := fun _ _ => [0],
    send_ok := fun _ _ => false }

/-- Counterexample for C7 as stated: at a concrete block with one event
and one host whose send fails, the failing pair is attempted (and
skipped), yet the trace contains no log emission — the claim that "the
failure is logged" is false: the source drops the send/confirm Result
with .ok() without logging. -/
theorem send_failure_not_logged_cex :
    Action.deliverEvent 0 0 false
      ∈ (process_descendant envFail [] [0] { number := 9, hash := 9 }
           { number := 10, hash := 10, parentHash := 9 }).2
    ∧ (process_descendant envFail [] [0] { number := 9, hash := 9 }
         { number := 10, hash := 10, parentHash := 9 }).2.countP is_log = 0 := by
  decide

/-- Witness for C7 (amended) at envFail: the failing pair is attempted,
the block pointer is still committed last, nothing is logged. -/
theorem send_failure_skipped_silently_witness :
    Action.deliverEvent 0 0 (envFail.send_ok 0 0)
      ∈ (process_descendant envFail [] [0] { number := 9, hash := 9 }
           { number := 10, hash := 10, parentHash := 9 }).2
    ∧ (process_descendant envFail [] [0] { number := 9, hash := 9 }
         { number := 10, hash := 10, parentHash := 9 }).2.getLast?
        = some (Action.setBlockPtrWithNoChanges
            (EthereumBlockPointer.to_parent { number := 10, hash := 10, parentHash := 9 })
            (EthBlock.toPtr { number := 10, hash := 10, parentHash := 9 }))
    ∧ (process_descendant envFail [] [0] { number := 9, hash := 9 }
         { number := 10, hash := 10, parentHash := 9 }).2.countP is_log = 0 :=
  send_failure_skipped_silently envFail [] [0] { number := 9, hash := 9 }
    { number := 10, hash := 10, parentHash := 9 } 0 0 (by decide) (by decide)

/-- C8: manager.rs does not guarantee that entity mutations of block N
are committed before the pointer advance to N.  The schedule in which
the walker receives the event confirmation and commits the block
pointer before the independently spawned runtime-event stream handler
(handle_runtime_event) commits the mutation is consistent with every
happens-before edge the code establishes, and in it the pointer commit
precedes the entity commit.  (The code's own TODOs — "this code is
incorrect. One TX should be used for entire block", "use a single
StoreTransaction, use commit instead of set_block_ptr" — mark this as
a known slip; the spec states the intended behaviour.) -/
theorem pointer_advance_can_precede_entity_commit :
    schedule_consistent
        [TaskEvt.sendEvent, TaskEvt.confirmEvent, TaskEvt.commitPtr, TaskEvt.commitEntity]
      = true
    ∧ [TaskEvt.sendEvent, TaskEvt.confirmEvent, TaskEvt.commitPtr,
        TaskEvt.commitEntity].indexOf TaskEvt.commitPtr
      < [TaskEvt.sendEvent, TaskEvt.confirmEvent, TaskEvt.commitPtr,
          TaskEvt.commitEntity].indexOf TaskEvt.commitEntity := by
  decide

/-- C9: For every SubgraphRemoved(id) event where no cancel handle is
registered for id (the subgraph was never added, or was already
removed), the provider-event handler panics on an assertion
(assert!(cancel.is_some())) instead of treating the removal as a
no-op; the panic is modelled by the `none` result. -/
theorem removed_without_cancel_handle_panics (st : ManagerState) (subgraph_id : String)
    (hc : st.head_block_update_cancelers.contains subgraph_id = false) :
    handle_subgraph_removed st subgraph_id = none := by
  unfold handle_subgraph_removed
  simp only [hc, Bool.false_eq_true, if_false]

/-- Witness for C9: removing a subgraph from the empty registry panics. -/
theorem removed_without_cancel_handle_panics_witness :
    handle_subgraph_removed
      { runtime_hosts_by_subgraph := [], head_block_update_cancelers := [] } "sub"
      = none :=
  removed_without_cancel_handle_panics
    { runtime_hosts_by_subgraph := [], head_block_update_cancelers := [] } "sub" rfl

/-- C10: When a head-update token arrives and the registry holds no
runtime hosts for the subgraph (entry missing or the host list empty),
the handler returns Ok immediately with an empty effect trace: no read
of the head or subgraph pointers, no chain RPC, and no store change
(the stored pointer is returned unchanged). -/
theorem head_update_without_hosts_is_noop (fuel : Nat) (env : Env)
    (runtime_hosts_by_subgraph : List (String × List RuntimeHost))
    (subgraph_id : String) (stored : Option EthereumBlockPointer)
    (hempty : (runtime_hosts_by_subgraph.lookup subgraph_id).getD [] = []) :
    head_block_update_on_token fuel false env runtime_hosts_by_subgraph subgraph_id stored
      = (TokenResult.ok, stored, []) := by
  unfold head_block_update_on_token
  simp [hempty]

/-- Witness for C10: a registry whose entry for the subgraph is the
empty host list; the token is a no-op. -/
theorem head_update_without_hosts_is_noop_witness :
    head_block_update_on_token 1 false envS1 [("sub", [])] "sub" none
      = (TokenResult.ok, none, []) :=
  head_update_without_hosts_is_noop 1 envS1 [("sub", [])] "sub" none rfl

end GraphNode
